import Mathlib

/-!
Shallow embedding of the feed-to-CMS reconciliation program in src/card.py,
together with theorems settling the specification claims about it.

Conventions of the embedding:
* Python strings are Lean `String`s; most character-level work happens on
  `List Char` (the `.data` of a string).
* Python floats are idealized as exact rationals, with the named special
  values inf, -inf and nan represented explicitly by `PyFloat`.
* Fallible Python code is embedded in `Except PyExc`; a `.error` value is an
  uncaught Python exception.
* Network calls are oracles: functions supplied as parameters that produce
  the HTTP responses the program would observe.
-/

/-- The Python exceptions the embedded code can raise. -/
inductive PyExc
  | valueError (msg : String)
  | overflowError (msg : String)
  | attributeError (msg : String)
  deriving DecidableEq

/-- Characters treated as whitespace by str.strip and by the regex class \s
(ASCII part; exotic Unicode spaces are not exercised by the program). -/
def isPySpace (c : Char) : Bool :=
  c = ' ' || c = '\t' || c = '\n' || c = '\r' || c = '\x0b' || c = '\x0c'

/-- Removes leading and trailing whitespace from a character list, as
Python str.strip does. -/
def pyStripChars (l : List Char) : List Char :=
  ((l.dropWhile isPySpace).reverse.dropWhile isPySpace).reverse

/-- Python str.strip on a string. -/
def pyStrip (s : String) : String := String.mk (pyStripChars s.data)

/-- Collapses every maximal run of whitespace characters to a single space;
the flag records whether the previous character belonged to a run. -/
def collapseWsAux : Bool → List Char → List Char
  | _, [] => []
  | prevWs, c :: rest =>
    if isPySpace c then
      if prevWs then collapseWsAux true rest
      else ' ' :: collapseWsAux true rest
    else c :: collapseWsAux false rest

/-- sanitize_text from card.py, line 52: collapse whitespace runs to one
space, then trim the ends. -/
def sanitize_text (s : String) : String :=
  String.mk (pyStripChars (collapseWsAux false s.data))

/-- The ASCII uppercase-to-lowercase table used to model Python str.lower. -/
def azTable : List (Char × Char) :=
  [('A', 'a'), ('B', 'b'), ('C', 'c'), ('D', 'd'), ('E', 'e'), ('F', 'f'),
   ('G', 'g'), ('H', 'h'), ('I', 'i'), ('J', 'j'), ('K', 'k'), ('L', 'l'),
   ('M', 'm'), ('N', 'n'), ('O', 'o'), ('P', 'p'), ('Q', 'q'), ('R', 'r'),
   ('S', 's'), ('T', 't'), ('U', 'u'), ('V', 'v'), ('W', 'w'), ('X', 'x'),
   ('Y', 'y'), ('Z', 'z')]

/-- The ASCII uppercase letters, used to state the no-uppercase claims. -/
def upperAZ : List Char := azTable.map (fun p => p.1)

/-- Python str.lower per character, modelled on the character repertoire the
program exercises: ASCII letters and the Norwegian capitals.  Characters
without a Unicode lowercase mapping (for example the trademark sign) are
unchanged, exactly as in CPython. -/
def pyLower (c : Char) : Char :=
  match azTable.find? (fun p => p.1 == c) with
  | some p => p.2
  | none =>
    if c = 'Æ' then 'æ'
    else if c = 'Ø' then 'ø'
    else if c = 'Å' then 'å'
    else c

/-- The chained replaces in normalize_for_slug, line 42: æ to a, ø to o,
å to a. -/
def replaceNorwegian (c : Char) : Char :=
  if c = 'æ' then 'a' else if c = 'ø' then 'o' else if c = 'å' then 'a' else c

/-- Unicode NFKD decomposition per character, modelled on the repertoire this
development needs: it is the identity on ASCII (true of real NFKD), maps the
compatibility characters with decompositions that matter here, and is the
identity elsewhere. -/
def nfkdChar (c : Char) : List Char :=
  if c = '™' then ['T', 'M']
  else if c = 'å' then ['a', '̊']
  else if c = 'é' then ['e', '́']
  else [c]

/-- The punctuation characters stripped by the regex in normalize_for_slug,
line 42. -/
def stripSet : List Char := ['+', '%', ',', ':', '&', '(', ')', '/', '.']

/-- normalize_for_slug from card.py, lines 41-42: default absent input to the
empty string, lowercase, replace the Norwegian vowels, NFKD-decompose, drop
non-ASCII characters, turn spaces into hyphens, delete the punctuation set,
and trim whitespace. -/
def normalize_for_slug (text : Option String) : String :=
  let l0 := (text.getD "").data
  let l1 := l0.map pyLower
  let l2 := l1.map replaceNorwegian
  let l3 := (l2.map nfkdChar).flatten
  let l4 := l3.filter (fun c => c.toNat < 128)
  let l5 := l4.map (fun c => if c = ' ' then '-' else c)
  let l6 := l5.filter (fun c => !(stripSet.contains c))
  String.mk (pyStripChars l6)

/-- Python str.split with a one-character separator, keeping empty pieces. -/
def splitOnChar (sep : Char) : List Char → List (List Char)
  | [] => [[]]
  | c :: rest =>
    let r := splitOnChar sep rest
    if c = sep then [] :: r
    else
      match r with
      | [] => [[c]]
      | h :: t => (c :: h) :: t

/-- The last segment of a slash-separated string, as in extract_id, line 45. -/
def lastSegment (s : String) : String :=
  String.mk ((splitOnChar '/' s.data).getLastD [])

/-- Whether the first list starts with the second. -/
def beginsWithL : List Char → List Char → Bool
  | _, [] => true
  | [], _ :: _ => false
  | h :: hs, n :: ns => h == n && beginsWithL hs ns

/-- Python substring containment: needle in hay. -/
def containsL (hay needle : List Char) : Bool :=
  match hay with
  | [] => needle.isEmpty
  | _ :: rest => beginsWithL hay needle || containsL rest needle

/-- Decimal digit test. -/
def isDigitCh (c : Char) : Bool := '0' ≤ c && c ≤ '9'

/-- Value of a list of decimal digit characters. -/
def digitsVal (l : List Char) : Nat :=
  l.foldl (fun a c => a * 10 + (c.toNat - 48)) 0

/-- Splits a character list into chunks of three (last chunk may be short). -/
def chunk3 : List Char → List (List Char)
  | [] => []
  | a :: b :: c :: rest => [a, b, c] :: chunk3 rest
  | l => [l]

/-- Decimal digits of a natural number grouped in threes from the right and
joined with spaces. -/
def groupThousandsNat (n : Nat) : List Char :=
  (List.intercalate [' '] (chunk3 (Nat.toDigits 10 n).reverse)).reverse

/-- The comma-grouped integer format of card.py line 63 with commas replaced
by spaces. -/
def groupThousands (n : Int) : String :=
  if n < 0 then String.mk ('-' :: groupThousandsNat n.natAbs)
  else String.mk (groupThousandsNat n.natAbs)

/-- Python float values, idealized: finite doubles become exact rationals and
the named specials are explicit. -/
inductive PyFloat
  | finite (q : ℚ)
  | posInf
  | negInf
  | nan
  deriving DecidableEq

/-- Strips one optional leading sign; returns whether it was a minus. -/
def splitSign : List Char → Bool × List Char
  | '+' :: rest => (false, rest)
  | '-' :: rest => (true, rest)
  | l => (false, l)

/-- Lowercases one ASCII character (for the named float specials). -/
def asciiLower (c : Char) : Char :=
  match azTable.find? (fun p => p.1 == c) with
  | some p => p.2
  | none => c

/-- Parses an unsigned decimal mantissa: digits with an optional point,
requiring at least one digit overall. -/
def parseMantissa (l : List Char) : Option ℚ :=
  let intPart := l.takeWhile isDigitCh
  let rest := l.dropWhile isDigitCh
  match rest with
  | [] => if intPart.isEmpty then none else some ((digitsVal intPart : ℚ))
  | '.' :: frac =>
    if frac.all isDigitCh && !(intPart.isEmpty && frac.isEmpty) then
      some ((digitsVal intPart : ℚ) + (digitsVal frac : ℚ) / (10 : ℚ) ^ frac.length)
    else none
  | _ => none

/-- Parses a signed decimal exponent with at least one digit. -/
def parseExp (l : List Char) : Option Int :=
  let p := splitSign l
  if p.2.isEmpty || !(p.2.all isDigitCh) then none
  else some (if p.1 then -(digitsVal p.2 : Int) else (digitsVal p.2 : Int))

/-- Ten to an integer power, as a rational. -/
def qPow10 (e : Int) : ℚ :=
  if 0 ≤ e then (10 : ℚ) ^ e.toNat else 1 / (10 : ℚ) ^ (-e).toNat

/-- Parses an unsigned decimal number with optional exponent. -/
def parseNumber (l : List Char) : Option ℚ :=
  let mant := l.takeWhile (fun c => c ≠ 'e' && c ≠ 'E')
  let rest := l.dropWhile (fun c => c ≠ 'e' && c ≠ 'E')
  match rest with
  | [] => parseMantissa mant
  | _ :: expPart => do
    let m ← parseMantissa mant
    let e ← parseExp expPart
    pure (m * qPow10 e)

/-- Python float(str): optional surrounding whitespace, optional sign, then
either decimal digits with optional point and exponent or one of the named
specials inf, infinity, nan (case-insensitive).  Values are exact rationals
(binary rounding and PEP 515 underscore grouping are abstracted away); a
string of any other shape raises ValueError, as in CPython. -/
def pyParseFloat (s : String) : Except PyExc PyFloat :=
  let l := pyStripChars s.data
  let p := splitSign l
  let lowBody := p.2.map asciiLower
  if lowBody = "inf".data || lowBody = "infinity".data then
    .ok (if p.1 then .negInf else .posInf)
  else if lowBody = "nan".data then .ok .nan
  else
    match parseNumber p.2 with
    | some q => .ok (.finite (if p.1 then -q else q))
    | none => .error (.valueError "could not convert string to float")

/-- Truncation toward zero of a rational, as Python int() on a float. -/
def ratTrunc (q : ℚ) : Int :=
  let m : Nat := q.num.natAbs / q.den
  if q.num < 0 then -(m : Int) else (m : Int)

/-- Python int() applied to a float: truncates finite values, raises
OverflowError on the infinities and ValueError on nan, as CPython does. -/
def pyInt (f : PyFloat) : Except PyExc Int :=
  match f with
  | .finite q => .ok (ratTrunc q)
  | .posInf => .error (.overflowError "cannot convert float infinity to integer")
  | .negInf => .error (.overflowError "cannot convert float infinity to integer")
  | .nan => .error (.valueError "cannot convert float NaN to integer")

/-- format_norwegian_number from card.py, lines 58-66: try int(float(number))
and group its digits in threes; the except clause catches only ValueError and
returns the input unchanged, so any other exception escapes. -/
def format_norwegian_number (number : String) : Except PyExc String :=
  match pyParseFloat number >>= pyInt with
  | .ok n => .ok (groupThousands n)
  | .error (.valueError _) => .ok number
  | .error e => .error e

/-- The effective periodic rate of calculate_apr, line 88: monthly
compounding of the nominal percentage r. -/
def effectiveRate (r : ℚ) : ℚ := (1 + (r / 100) / 12) ^ (12 : ℕ) - 1

/-- Total annual fees, line 91. -/
def totalFees (a t : ℚ) : ℚ := a + t * 12

/-- Total yearly cost, lines 92-93: fees plus interest on the fixed 30000
notional loan. -/
def totalCost (r a t : ℚ) : ℚ := totalFees a t + 30000 * effectiveRate r

/-- Adjusted effective rate including fees, line 96. -/
def adjustedEffectiveRate (r a t : ℚ) : ℚ := totalCost r a t / 30000

/-- Total amount after interest, line 99. -/
def totalAmount (r a t : ℚ) : ℚ := 30000 + totalCost r a t

/-- Floor of a rational as an integer, computed from its reduced fraction. -/
def ratFloor (q : ℚ) : Int :=
  if 0 ≤ q.num then ((q.num.natAbs / q.den : Nat) : Int)
  else -(((q.num.natAbs + q.den - 1) / q.den : Nat) : Int)

/-- Rounding to the nearest integer, ties upward.  This models the rounding
of the f-string formats; CPython rounds ties of exact binary doubles to even,
a difference no claim depends on. -/
def pyRoundInt (q : ℚ) : Int := ratFloor (q + 1 / 2)

/-- Two-digit zero padding. -/
def pad2 (k : Nat) : String := if k < 10 then "0" ++ toString k else toString k

/-- The two-decimal fixed-point format used for the rates. -/
def format2f (x : ℚ) : String :=
  let n := pyRoundInt (x * 100)
  let sign := if n < 0 then "-" else ""
  sign ++ toString (n.natAbs / 100) ++ "." ++ pad2 (n.natAbs % 100)

/-- The zero-decimal fixed-point format used for the money amounts. -/
def format0f (x : ℚ) : String := toString (pyRoundInt x)

/-- The result record of calculate_apr, lines 106-109. -/
structure AprRes where
  effective_rate : String
  exampleText : String
  deriving DecidableEq

/-- Python dict.get on an association list with string keys. -/
def alistGet (l : List (String × String)) (k : String) : Option String :=
  (l.find? (fun p => p.1 == k)).map (fun p => p.2)

/-- float(xml_data.get(key, 0)): a missing key defaults to zero, a present
value goes through Python float parsing. -/
def fieldFloat (xd : List (String × String)) (k : String) : Except PyExc PyFloat :=
  match alistGet xd k with
  | none => .ok (.finite 0)
  | some v => pyParseFloat v

/-- The finite-input result of calculate_apr, mirroring lines 79-109 with r
the raw nominal percentage. -/
def aprFinite (r a t : ℚ) : AprRes :=
  let adj := adjustedEffectiveRate r a t
  { effective_rate := format2f (adj * 100) ++ "%"
  , exampleText :=
      "Nom.rente " ++ format2f ((r / 100) * 100) ++ "%, eff.rente " ++
      format2f (adj * 100) ++ "%, lånebeløp 30000, nedbetalt o/ 12 måneder, kost: " ++
      format0f (totalCost r a t) ++ ", tot: " ++ format0f (totalAmount r a t) ++ "." }

/-- The result of calculate_apr when one of the parsed floats is a special
value.  CPython would propagate the special through the arithmetic into the
formatted strings without raising; the exact strings are abstracted since no
claim inspects them, only the fact that a result is produced. -/
def aprSpecial (r a t : PyFloat) : AprRes :=
  if r = .nan || a = .nan || t = .nan then
    { effective_rate := "nan%", exampleText := "nan" }
  else
    { effective_rate := "inf%", exampleText := "inf" }

/-- calculate_apr from card.py, lines 77-112: parse the three numeric fields
(missing ones default to zero), compute the adjusted effective rate and the
example sentence; the bare except catches every exception, so any conversion
failure yields None instead of raising. -/
def calculate_apr (xd : List (String × String)) : Option AprRes :=
  match fieldFloat xd "kredittkort_nominell_rente",
        fieldFloat xd "kredittkort_kort_arsgebyr",
        fieldFloat xd "kredittkort_termingebyr" with
  | .ok (.finite r), .ok (.finite a), .ok (.finite t) => some (aprFinite r a t)
  | .ok r, .ok a, .ok t => some (aprSpecial r a t)
  | _, _, _ => none

/-- A value stored under a CMS field name: the program writes strings and
booleans. -/
inductive FV
  | s (v : String)
  | b (v : Bool)
  deriving DecidableEq

/-- The fieldData dictionary, as the list of key-value assignments in the
order the program performs them; a later binding of a key overwrites an
earlier one, which lookup reflects by scanning from the right. -/
abbrev FieldData := List (String × FV)

/-- Python dict lookup on an assignment list: the last binding wins. -/
def dGet {α : Type} (l : List (String × α)) (k : String) : Option α :=
  (l.reverse.find? (fun p => p.1 == k)).map (fun p => p.2)

/-- The key set of a fieldData assignment list. -/
def fdKeys (fd : FieldData) : List String := fd.map (fun p => p.1)

/-- field_mapping from card.py, lines 17-37: the feed attribute to CMS field
name table.  The source dict literal repeats the key
kredittkort_reiseforsikring_beskrivelse with the same value; a Python dict
keeps a single entry for it. -/
def field_mapping : List (String × String) :=
  [("kredittkort_andre_fordeler", "kredittkort-andre-fordeler"),
   ("min_alder", "aldersgrense-2"),
   ("maks_alder", "min-alder-2"),
   ("kredittkort_reiseforsikring", "reiseforsikring"),
   ("kredittkort_reiseforsikring_beskrivelse", "kredittkort-reiseforsikring-beskrivelse-3"),
   ("leverandor_tekst", "leverandor-tekst"),
   ("kredittkort_maks_ramme", "kredittkort-maks-ramme-2"),
   ("kredittkort_min_inntekt", "kredittkort-min-inntekt-2"),
   ("kredittkort_termingebyr", "kredittkort-termingebyr-2"),
   ("kredittkort_nominell_rente", "kredittkort-nominell-rente-3"),
   ("kredittkort_rentefri_periode", "kredittkort-rentefri-periode-2"),
   ("kredittkort_andre_fordeler_beskrivelse", "kredittkort-andre-fordeler-beskrivelse-2"),
   ("kredittkort_uttak_egen_bank_i_apningstid_transgebyr", "kredittkort-uttak-egen-bank-i-apningstid-2"),
   ("kredittkort_uttak_utland_valutapaslag", "kredittkort-uttak-utland-valutapaslag-2"),
   ("effektiv_rente", "effektiv-rente-4"),
   ("kredittkort_kort_arsgebyr", "kredittkort-kort-arsgebyr-2"),
   ("eksempel_rente", "eksempel-rente"),
   ("spesielle_betingelser", "spesielle-betingelser")]

/-- check_andre_fordeler from card.py, lines 168-181: lowercase the benefits
text once and report the four keyword flags. -/
def check_andre_fordeler (txt : String) : FieldData :=
  let l := txt.data.map pyLower
  let has := fun (kw : String) => containsL l kw.data
  [("priority-pass", .b (has "priority pass" || has "lounge")),
   ("cashback", .b (has "cashback" || has "cash back" || has "penger tilbake")),
   ("rabatter", .b (has "rabatt")),
   ("bonuser", .b (has "bonus"))]

/-- The per-field transformation of lines 204-211: the two long-text fields
are sanitized, the currency field is thousand-grouped (which can raise), and
everything else passes through. -/
def mapOneField (wf v : String) : Except PyExc FV :=
  if wf = "kredittkort-reiseforsikring-beskrivelse-3" ||
     wf = "kredittkort-andre-fordeler-beskrivelse-2" then
    .ok (.s (sanitize_text v))
  else if wf = "kredittkort-maks-ramme-2" then
    (format_norwegian_number v).map FV.s
  else .ok (.s v)

/-- The mapped-fields loop of lines 204-211 over a mapping table: each feed
attribute present in the entry contributes its transformed value under the
CMS field name, in table order. -/
def buildMapped (xd : List (String × String)) : List (String × String) → Except PyExc FieldData
  | [] => .ok []
  | (xf, wf) :: rest =>
    match alistGet xd xf with
    | none => buildMapped xd rest
    | some v => do
      let fv ← mapOneField wf v
      let fd ← buildMapped xd rest
      pure ((wf, fv) :: fd)

/-- The three base fields of lines 196-200. -/
def baseFields (updDate title orgnr : String) : FieldData :=
  [("name", .s title), ("leverandor-tekst", .s orgnr), ("sist-oppdatert", .s updDate)]

/-- The derived cost fields of lines 218-221: present exactly when
calculate_apr succeeded. -/
def aprFields (xd : List (String × String)) : FieldData :=
  match calculate_apr xd with
  | some apr => [("effektiv-rente-4", .s apr.effective_rate), ("eksempel-rente", .s apr.exampleText)]
  | none => []

/-- The bank reference field of lines 223-225. -/
def bankField (bank : Option String) : FieldData :=
  match bank with
  | some b => [("bank", .s b)]
  | none => []

/-- One parsed feed entry as the tuple built on lines 123-126. -/
structure EntryData where
  title : String
  orgnr : String
  xmlData : List (String × String)
  numericalId : String
  deriving DecidableEq

/-- A write payload sent to the CMS. -/
structure Payload where
  isArchived : Bool
  isDraft : Bool
  fieldData : FieldData
  deriving DecidableEq

/-- The update payload built for one entry in lines 193-225.  The bank
lookup is the oracle bankOr, whose error value models a raised request
exception. -/
def builtPayload (updDate : String) (bankOr : String → Except PyExc (Option String))
    (e : EntryData) : Except PyExc Payload := do
  let mapped ← buildMapped e.xmlData field_mapping
  let flags := check_andre_fordeler ((alistGet e.xmlData "kredittkort_andre_fordeler_beskrivelse").getD "")
  let bank ← bankOr e.orgnr
  pure { isArchived := false, isDraft := false
       , fieldData := baseFields updDate e.title e.orgnr ++ mapped ++ flags ++
           aprFields e.xmlData ++ bankField bank }

/-- A request the reconciler issues against the offers collection. -/
inductive Request
  | patchReq (itemId : String) (p : Payload)
  | postReq (p : Payload)
  deriving DecidableEq

/-- The observable log and console lines of the program. -/
inductive LogLine
  | itemStatus (id : String) (code : Nat)
  | newItemStatus (id : String) (code : Nat)
  | createFailed (id : String)
  | itemError (id : String) (e : PyExc)
  | summaryUpdates (upd total : Nat)
  | summaryCreated (n : Nat)
  | fetchPageFailed (code : Nat)
  | fetchedCount (n : Nat)
  | bankFound (itemId orgnr : String)
  | bankPageFailed (offset code : Nat)
  | bankNotFound (orgnr : String)
  deriving DecidableEq

/-- The per-entry outcome: counter deltas, the request issued (if any), and
the lines printed. -/
structure StepOut where
  dUpd : Nat
  dNew : Nat
  req : Option Request
  log : List LogLine
  deriving DecidableEq

/-- One CMS item of the offers collection, reduced to what the program
reads: its id and the slug recorded in its fieldData. -/
structure WfItem where
  itemId : String
  slug : Option String
  deriving DecidableEq

/-- One page response of the offers collection listing. -/
structure WfPage where
  status : Nat
  items : List WfItem
  deriving DecidableEq

/-- The pagination loop of fetch_all_webflow_items, lines 273-288: pages is
the stream of responses the successive requests would receive.  A successful
page is folded into the slug-keyed dictionary; a short page ends the loop; a
non-success page is logged and ends the loop with what was accumulated.  An
exhausted stream returns the accumulator (a faithful run always ends with a
short or failing page first). -/
def fetchAllAux : List WfPage → List (String × WfItem) → List (String × WfItem) × List LogLine
  | [], acc => (acc, [])
  | p :: rest, acc =>
    if p.status = 200 then
      let acc2 := acc ++ p.items.map (fun it => (it.slug.getD "", it))
      if p.items.length < 100 then (acc2, [])
      else fetchAllAux rest acc2
    else (acc, [.fetchPageFailed p.status])

/-- fetch_all_webflow_items from card.py, lines 267-291, reporting the number
of distinct keys as the fetched count. -/
def fetch_all_webflow_items (pages : List WfPage) : List (String × WfItem) × List LogLine :=
  let r := fetchAllAux pages []
  (r.1, r.2 ++ [.fetchedCount ((r.1.map (fun p => p.1)).eraseDups.length)])

/-- One CMS item of the bank collection: its id and fieldData name. -/
structure BankItem where
  itemId : String
  name : Option String
  deriving DecidableEq

/-- One page response of the bank collection listing. -/
structure BankPage where
  status : Nat
  items : List BankItem
  deriving DecidableEq

/-- The offset loop of get_bank_id, lines 295-304, over the (offset, page)
responses in order.  On a successful page the first item whose name equals
orgnr wins; a failing page is logged, after which the loop moves on to the
next offset. -/
def getBankAux (orgnr : String) : List (Nat × BankPage) → Option String × List LogLine
  | [] => (none, [.bankNotFound orgnr])
  | (off, p) :: rest =>
    if p.status = 200 then
      match p.items.find? (fun it => it.name == some orgnr) with
      | some it => (some it.itemId, [.bankFound it.itemId orgnr])
      | none => getBankAux orgnr rest
    else
      let r := getBankAux orgnr rest
      (r.1, .bankPageFailed off p.status :: r.2)

/-- get_bank_id from card.py, lines 293-305: exactly four page requests at
offsets 0, 100, 200, 300. -/
def get_bank_id (orgnr : String) (p0 p1 p2 p3 : BankPage) : Option String × List LogLine :=
  getBankAux orgnr [(0, p0), (100, p1), (200, p2), (300, p3)]

/-- The directory lookup of line 227: webflow_items.get(numerical_id), then
the id field of the found item is the endpoint of the update call. -/
def idxOf (items : List (String × WfItem)) : String → Option String :=
  fun k => (dGet items k).map (fun it => it.itemId)

/-- The body of the per-entry try block, lines 193-257: build the payload,
look the entry up in the directory, and issue the update or the create call.
patchOr and postOr are the response oracles of the two endpoints; their
error values model raised request exceptions. -/
def entryStepE (updDate : String) (idx : String → Option String)
    (bankOr : String → Except PyExc (Option String))
    (patchOr : String → Payload → Except PyExc Nat)
    (postOr : Payload → Except PyExc Nat)
    (e : EntryData) : Except PyExc StepOut := do
  let p ← builtPayload updDate bankOr e
  match idx e.numericalId with
  | some itemId => do
    let code ← patchOr itemId p
    pure { dUpd := if code = 200 then 1 else 0, dNew := 0
         , req := some (.patchReq itemId p)
         , log := [.itemStatus e.numericalId code] }
  | none => do
    let cp : Payload :=
      { isArchived := false, isDraft := false
      , fieldData := p.fieldData ++ [("slug", FV.s e.numericalId)] }
    let code ← postOr cp
    pure { dUpd := 0, dNew := if code = 200 then 1 else 0
         , req := some (.postReq cp)
         , log := [.newItemStatus e.numericalId code] ++
             (if code = 200 then [] else [.createFailed e.numericalId]) }

/-- One loop iteration of lines 191-260: the except clause turns any raised
exception into a logged line carrying the entry identifier, and the loop goes
on. -/
def entryStep (updDate : String) (idx : String → Option String)
    (bankOr : String → Except PyExc (Option String))
    (patchOr : String → Payload → Except PyExc Nat)
    (postOr : Payload → Except PyExc Nat)
    (e : EntryData) : StepOut :=
  match entryStepE updDate idx bankOr patchOr postOr e with
  | .ok o => o
  | .error ex => { dUpd := 0, dNew := 0, req := none, log := [.itemError e.numericalId ex] }

/-- The entry loop of check_webflow_existence: successive counter sums, logs
and requests of the per-entry steps. -/
def runLoopAux (updDate : String) (items : List (String × WfItem))
    (bankOr : String → Except PyExc (Option String))
    (patchOr : String → Payload → Except PyExc Nat)
    (postOr : Payload → Except PyExc Nat) :
    List EntryData → Nat × Nat × List LogLine × List Request
  | [] => (0, 0, [], [])
  | e :: rest =>
    let o := entryStep updDate (idxOf items) bankOr patchOr postOr e
    let r := runLoopAux updDate items bankOr patchOr postOr rest
    (o.dUpd + r.1, o.dNew + r.2.1, o.log ++ r.2.2.1, o.req.toList ++ r.2.2.2)

/-- check_webflow_existence from card.py, lines 184-265: fetch the directory
index once, run the entry loop, and print the two summary lines. -/
def check_webflow_existence (updDate : String) (pages : List WfPage)
    (bankOr : String → Except PyExc (Option String))
    (patchOr : String → Payload → Except PyExc Nat)
    (postOr : Payload → Except PyExc Nat)
    (entries : List EntryData) (total : Nat) : Nat × Nat × List LogLine × List Request :=
  let items := (fetch_all_webflow_items pages).1
  let r := runLoopAux updDate items bankOr patchOr postOr entries
  (r.1, r.2.1, r.2.2.1 ++ [.summaryUpdates r.1 total, .summaryCreated r.2.1], r.2.2.2)

/-- One raw XML feed entry, reduced to what parse_xml_and_process reads.
Each optional element carries its optional text (an element can be absent,
or present with no text). -/
structure XmlEntry where
  atomTitle : Option (Option String)
  atomId : Option (Option String)
  fFields : List (String × Option String)
  deriving DecidableEq

/-- The per-entry parsing of lines 123-126 together with extract_id, lines
44-45.  A missing title or id element (or missing text on them) raises
AttributeError exactly where CPython would; a missing leverandor_tekst
element falls back to the empty string; every namespaced field defaults its
text to the empty string. -/
def parseEntry (en : XmlEntry) : Except PyExc (String × String × List (String × String) × String) := do
  let title ← match en.atomTitle with
    | none => Except.error (PyExc.attributeError "NoneType object has no attribute text")
    | some none => Except.error (PyExc.attributeError "NoneType object has no attribute strip")
    | some (some t) => Except.ok (pyStrip t)
  let lev ← match en.fFields.find? (fun p => p.1 == "leverandor_tekst") with
    | none => Except.ok ""
    | some q =>
      match q.2 with
      | none => Except.error (PyExc.attributeError "NoneType object has no attribute strip")
      | some t => Except.ok (pyStrip t)
  let fields := en.fFields.map (fun p => (p.1, pyStrip (p.2.getD "")))
  let idStr ← match en.atomId with
    | none => Except.error (PyExc.attributeError "NoneType object has no attribute text")
    | some none => Except.error (PyExc.attributeError "NoneType object has no attribute split")
    | some (some s) => Except.ok (lastSegment s)
  pure (title, lev, fields, idStr)

/-- The list comprehension of lines 123-126: one failing entry aborts the
whole parse. -/
def parseEntries (l : List XmlEntry) :
    Except PyExc (List (String × String × List (String × String) × String)) :=
  l.mapM parseEntry

deriving instance DecidableEq for Except

@[simp]
theorem except_bind_ok {α β : Type} (a : α) (f : α → Except PyExc β) :
    (Except.ok a >>= f) = f a := rfl

@[simp]
theorem except_bind_error {α β : Type} (ex : PyExc) (f : α → Except PyExc β) :
    ((Except.error ex : Except PyExc α) >>= f) = .error ex := rfl

/-- Membership in a stripped list implies membership in the original. -/
theorem mem_of_mem_pyStripChars {c : Char} {l : List Char} (h : c ∈ pyStripChars l) : c ∈ l := by
  unfold pyStripChars at h
  have h1 : c ∈ (l.dropWhile isPySpace).reverse.dropWhile isPySpace := List.mem_reverse.mp h
  have h2 : c ∈ (l.dropWhile isPySpace).reverse := (List.dropWhile_sublist _).subset h1
  have h3 : c ∈ l.dropWhile isPySpace := List.mem_reverse.mp h2
  exact (List.dropWhile_sublist _).subset h3

/-- Lowercasing keeps an ASCII character ASCII and never yields an uppercase
letter. -/
theorem pyLower_ascii {c : Char} (h : c.toNat < 128) :
    (pyLower c).toNat < 128 ∧ pyLower c ∉ upperAZ := by
  have hAe : c ≠ 'Æ' := by intro hh; subst hh; exact absurd h (by decide)
  have hO : c ≠ 'Ø' := by intro hh; subst hh; exact absurd h (by decide)
  have hA : c ≠ 'Å' := by intro hh; subst hh; exact absurd h (by decide)
  cases hf : azTable.find? (fun p => p.1 == c) with
  | some p =>
    have hp := List.mem_of_find?_eq_some hf
    have hprop : ∀ q ∈ azTable, q.2.toNat < 128 ∧ q.2 ∉ upperAZ := by decide
    have heq : pyLower c = p.2 := by unfold pyLower; rw [hf]
    rw [heq]; exact hprop p hp
  | none =>
    have hne := List.find?_eq_none.mp hf
    have heq : pyLower c = c := by unfold pyLower; rw [hf]; simp [hAe, hO, hA]
    rw [heq]
    refine ⟨h, ?_⟩
    intro hmem
    rw [upperAZ, List.mem_map] at hmem
    obtain ⟨q, hq, hq1⟩ := hmem
    exact hne q hq (by simp [hq1])

/-- The Norwegian-vowel replacement is the identity on ASCII characters. -/
theorem replaceNorwegian_ascii {c : Char} (h : c.toNat < 128) : replaceNorwegian c = c := by
  have h1 : c ≠ 'æ' := by intro hh; subst hh; exact absurd h (by decide)
  have h2 : c ≠ 'ø' := by intro hh; subst hh; exact absurd h (by decide)
  have h3 : c ≠ 'å' := by intro hh; subst hh; exact absurd h (by decide)
  unfold replaceNorwegian
  simp [h1, h2, h3]

/-- NFKD is the identity on ASCII characters. -/
theorem nfkdChar_ascii {c : Char} (h : c.toNat < 128) : nfkdChar c = [c] := by
  have h1 : c ≠ '™' := by intro hh; subst hh; exact absurd h (by decide)
  have h2 : c ≠ 'å' := by intro hh; subst hh; exact absurd h (by decide)
  have h3 : c ≠ 'é' := by intro hh; subst hh; exact absurd h (by decide)
  unfold nfkdChar
  simp [h1, h2, h3]

/-- C9: format_thousands groups "1234567" as "1 234 567" and falls back to
the original input on a parse failure such as "abc"; but on "inf" the float
parse succeeds, int() raises OverflowError, and the handler, which catches
only ValueError, lets it escape — contradicting the never-raises claim and
the function's own fallback comment. -/
theorem C9_format_thousands_bug :
    format_norwegian_number "1234567" = .ok "1 234 567" ∧
    format_norwegian_number "abc" = .ok "abc" ∧
    format_norwegian_number "inf" =
      .error (PyExc.overflowError "cannot convert float infinity to integer") := by
  refine ⟨by decide, by decide, by decide⟩

/-- Bernoulli bound for the compounding step: the effective monthly
compounded rate is at least the nominal rate. -/
theorem effectiveRate_ge_nominal (r : ℚ) : r / 100 ≤ effectiveRate r := by
  unfold effectiveRate
  set y : ℚ := r / 100 / 12 with hy
  have h12 : (r : ℚ) / 100 = 12 * y := by rw [hy]; ring
  rw [h12]
  by_cases hcase : (-2 : ℚ) ≤ y
  · have hb := one_add_mul_le_pow hcase 12
    push_cast at hb
    linarith
  · push_neg at hcase
    have h1 : ((1 + y) ^ (12 : ℕ) : ℚ) = ((1 + y) ^ (6 : ℕ)) ^ (2 : ℕ) := by
      rw [← pow_mul]
    have h2 : (0 : ℚ) ≤ ((1 + y) ^ (6 : ℕ)) ^ (2 : ℕ) := sq_nonneg _
    rw [h1]
    nlinarith

/-- C3: the adjusted effective rate of the cost calculator is exactly
(fees + 30000 times the compounded rate) over 30000; with zero fees it is
the pure monthly-compounding rate, and with positive fees it strictly
exceeds both the pure-compounding rate and the nominal rate. -/
theorem C3_cost_calculator (r a t : ℚ) (ha : 0 ≤ a) (ht : 0 ≤ t) :
    adjustedEffectiveRate r a t =
      (a + 12 * t + 30000 * ((1 + r / 100 / 12) ^ (12 : ℕ) - 1)) / 30000 ∧
    ((a = 0 ∧ t = 0) → adjustedEffectiveRate r a t = (1 + r / 100 / 12) ^ (12 : ℕ) - 1) ∧
    (0 < a + 12 * t →
      effectiveRate r < adjustedEffectiveRate r a t ∧ r / 100 < adjustedEffectiveRate r a t) := by
  refine ⟨?_, ?_, ?_⟩
  · unfold adjustedEffectiveRate totalCost totalFees effectiveRate; ring
  · rintro ⟨rfl, rfl⟩
    unfold adjustedEffectiveRate totalCost totalFees effectiveRate; ring
  · intro hpos
    have key : adjustedEffectiveRate r a t - effectiveRate r = (a + 12 * t) / 30000 := by
      unfold adjustedEffectiveRate totalCost totalFees; ring
    have hq : (0 : ℚ) < (a + 12 * t) / 30000 := by positivity
    have hgt : effectiveRate r < adjustedEffectiveRate r a t := by linarith
    exact ⟨hgt, lt_of_le_of_lt (effectiveRate_ge_nominal r) hgt⟩

theorem C3_witness :
    effectiveRate 20 < adjustedEffectiveRate 20 12 5 ∧
    (20 : ℚ) / 100 < adjustedEffectiveRate 20 12 5 :=
  (C3_cost_calculator 20 12 5 (by norm_num) (by norm_num)).2.2 (by norm_num)

/-- C6 counterexample: an entry whose title element is absent (with a valid
id and provider reference) makes the parse raise AttributeError instead of
falling back to the empty string, refuting the claim that title absence is
tolerated. -/
theorem C6_counterexample :
    parseEntry { atomTitle := none, atomId := some (some "https://x/42"), fFields := [] } =
      .error (PyExc.attributeError "NoneType object has no attribute text") := rfl

/-- C6 as amended: the provider reference tolerates absence of its element by
falling back to the empty string, but a missing title element raises (fatal),
as does a missing id element; and any entry-level parse failure is fatal for
the whole parse, since the list parse succeeds only when every entry does. -/
theorem C6_parse_tolerance :
    (∀ (en : XmlEntry) (t i : String), en.atomTitle = some (some t) →
        en.atomId = some (some i) →
        en.fFields.find? (fun p => p.1 == "leverandor_tekst") = none →
        parseEntry en =
          .ok (pyStrip t, "", en.fFields.map (fun p => (p.1, pyStrip (p.2.getD ""))), lastSegment i)) ∧
    (∀ en : XmlEntry, en.atomTitle = none → ∃ ex, parseEntry en = .error ex) ∧
    (∀ (en : XmlEntry) (t : String), en.atomTitle = some (some t) → en.atomId = none →
        ∃ ex, parseEntry en = .error ex) ∧
    (∀ (l : List XmlEntry) (res : List (String × String × List (String × String) × String)),
        parseEntries l = .ok res → ∀ en ∈ l, ∃ x, parseEntry en = .ok x) := by
  refine ⟨?_, ?_, ?_, ?_⟩
  · intro en t i ht hi hl
    simp [parseEntry, ht, hi, hl]
  · intro en h
    exact ⟨PyExc.attributeError "NoneType object has no attribute text",
      by simp [parseEntry, h]⟩
  · intro en t ht hi
    cases hl : en.fFields.find? (fun p => p.1 == "leverandor_tekst") with
    | none =>
      exact ⟨PyExc.attributeError "NoneType object has no attribute text",
        by simp [parseEntry, ht, hi, hl]⟩
    | some q =>
      cases hq : q.2 with
      | none =>
        exact ⟨PyExc.attributeError "NoneType object has no attribute strip",
          by simp [parseEntry, ht, hl, hq]⟩
      | some v =>
        exact ⟨PyExc.attributeError "NoneType object has no attribute text",
          by simp [parseEntry, ht, hi, hl, hq]⟩
  · intro l
    induction l with
    | nil => intro res hres en hen; cases hen
    | cons a rest ih =>
      intro res hres en hen
      rw [parseEntries, List.mapM_cons] at hres
      cases ha : parseEntry a with
      | error ex => rw [ha] at hres; simp at hres
      | ok x =>
        rw [ha] at hres
        simp only [except_bind_ok] at hres
        cases hrest : rest.mapM parseEntry with
        | error ex => rw [hrest] at hres; simp at hres
        | ok xs =>
          rw [hrest] at hres
          cases hen with
          | head => exact ⟨x, ha⟩
          | tail _ hmem => exact ih xs hrest en hmem

theorem C6_witness :
    parseEntry { atomTitle := some (some " T "), atomId := some (some "tag:a/7"), fFields := [] } =
      .ok ("T", "", [], "7") := by
  have h := C6_parse_tolerance.1
    { atomTitle := some (some " T "), atomId := some (some "tag:a/7"), fFields := [] }
    " T " "tag:a/7" rfl rfl rfl
  simpa using h

/-- C7 counterexample: in the bank-reference scan a failing first page is
logged but the loop continues, so a match on the second page is still found —
the claim that a non-success page terminates that pagination loop is false
for get_bank_id. -/
theorem C7_counterexample :
    get_bank_id "BankX" { status := 500, items := [] }
        { status := 200, items := [{ itemId := "bank1", name := some "BankX" }] }
        { status := 200, items := [] } { status := 200, items := [] } =
      (some "bank1", [.bankPageFailed 0 500, .bankFound "bank1" "BankX"]) := by decide

/-- C7 as amended: in the directory fetch a non-success page is logged and
terminates the pagination loop, returning what was accumulated so far; in the
bank-reference scan a non-success page is logged but the scan continues with
the remaining offsets. -/
theorem C7_pagination_failure :
    (∀ (p : WfPage) (rest : List WfPage) (acc : List (String × WfItem)), p.status ≠ 200 →
        fetchAllAux (p :: rest) acc = (acc, [.fetchPageFailed p.status])) ∧
    (∀ (orgnr : String) (off : Nat) (bp : BankPage) (tail : List (Nat × BankPage)),
        bp.status ≠ 200 →
        getBankAux orgnr ((off, bp) :: tail) =
          ((getBankAux orgnr tail).1, .bankPageFailed off bp.status :: (getBankAux orgnr tail).2)) := by
  constructor
  · intro p rest acc hp
    simp [fetchAllAux, hp]
  · intro orgnr off bp tail hbp
    simp [getBankAux, hbp]

theorem C7_witness :
    fetchAllAux [{ status := 404, items := [] }] [] = ([], [.fetchPageFailed 404]) ∧
    getBankAux "B" [(0, { status := 404, items := [] })] =
      (none, [.bankPageFailed 0 404, .bankNotFound "B"]) := by
  constructor
  · exact C7_pagination_failure.1 { status := 404, items := [] } [] [] (by decide)
  · exact C7_pagination_failure.2 "B" 0 { status := 404, items := [] } [] (by decide)

/-- C8 counterexample: the trademark sign has no lowercase mapping, so it
survives str.lower, and its NFKD decomposition is the uppercase pair TM,
which the ASCII encode keeps — the output of the slug normalizer can contain
uppercase ASCII letters. -/
theorem C8_counterexample :
    normalize_for_slug (some "™") = "TM" ∧
    'T' ∈ (normalize_for_slug (some "™")).data ∧ 'T' ∈ upperAZ := by
  refine ⟨by decide, by decide, by decide⟩

/-- C8 as amended: the slug output never contains a character of the stripped
punctuation set, empty or absent input yields the empty string, and for
ASCII input (where NFKD cannot smuggle letters back in) the output contains
no uppercase ASCII letter. -/
theorem C8_slug_safety :
    (∀ (t : Option String), ∀ c ∈ (normalize_for_slug t).data, c ∉ stripSet) ∧
    normalize_for_slug none = "" ∧
    normalize_for_slug (some "") = "" ∧
    (∀ s : String, (∀ c ∈ s.data, c.toNat < 128) →
        ∀ c ∈ (normalize_for_slug (some s)).data, c ∉ upperAZ) := by
  refine ⟨?_, rfl, rfl, ?_⟩
  · intro t c hc
    simp only [normalize_for_slug] at hc
    have h6 := mem_of_mem_pyStripChars hc
    rw [List.mem_filter] at h6
    simpa using h6.2
  · intro s hascii c hc
    simp only [normalize_for_slug] at hc
    have h6 := mem_of_mem_pyStripChars hc
    rw [List.mem_filter] at h6
    have h5 := h6.1
    rw [List.mem_map] at h5
    obtain ⟨c4, h4, hceq⟩ := h5
    rw [List.mem_filter] at h4
    obtain ⟨h3, _⟩ := h4
    rw [List.mem_flatten] at h3
    obtain ⟨ll, hll, hcll⟩ := h3
    rw [List.mem_map] at hll
    obtain ⟨b2, hb2, hlleq⟩ := hll
    rw [List.mem_map] at hb2
    obtain ⟨b1, hb1, hb2eq⟩ := hb2
    rw [List.mem_map] at hb1
    obtain ⟨b0, hb0, hb1eq⟩ := hb1
    have hb0a := hascii b0 hb0
    have hlow := pyLower_ascii hb0a
    rw [← hb1eq] at hb2eq
    rw [replaceNorwegian_ascii hlow.1] at hb2eq
    rw [← hb2eq, nfkdChar_ascii hlow.1] at hlleq
    rw [← hlleq] at hcll
    rw [List.mem_singleton] at hcll
    rw [← hceq]
    by_cases hsp : c4 = ' '
    · rw [if_pos hsp]; decide
    · rw [if_neg hsp, hcll]; exact hlow.2

/-- Lookup in an appended assignment list: the later part wins. -/
theorem dGet_append {α : Type} (l₁ l₂ : List (String × α)) (k : String) :
    dGet (l₁ ++ l₂) k = (dGet l₂ k).or (dGet l₁ k) := by
  unfold dGet
  rw [List.reverse_append, List.find?_append]
  cases List.find? (fun p => p.1 == k) l₂.reverse <;> simp

/-- An assignment list none of whose keys is k has no binding for k. -/
theorem dGet_none {α : Type} {l : List (String × α)} {k : String}
    (h : ∀ p ∈ l, p.1 ≠ k) : dGet l k = none := by
  unfold dGet
  rw [List.find?_eq_none.mpr]
  · rfl
  · intro p hp
    simp [h p (List.mem_reverse.mp hp)]

@[simp]
theorem except_map_ok {α β : Type} (f : α → β) (a : α) :
    (f <$> (Except.ok a : Except PyExc α)) = .ok (f a) := rfl

@[simp]
theorem except_map_error {α β : Type} (f : α → β) (ex : PyExc) :
    (f <$> (Except.error ex : Except PyExc α)) = .error ex := rfl

@[simp]
theorem except_pure_eq {α : Type} (a : α) : (pure a : Except PyExc α) = .ok a := rfl

/-- Every key the mapped-fields loop produces is a CMS field name of the
mapping table it ran over. -/
theorem buildMapped_keys {xd : List (String × String)} :
    ∀ {m : List (String × String)} {fd : FieldData}, buildMapped xd m = .ok fd →
      ∀ k ∈ fdKeys fd, k ∈ m.map (fun p => p.2) := by
  intro m
  induction m with
  | nil =>
    intro fd h k hk
    rw [buildMapped] at h
    cases h
    cases hk
  | cons a rest ih =>
    obtain ⟨xf, wf⟩ := a
    intro fd h k hk
    cases halist : alistGet xd xf with
    | none =>
      simp only [buildMapped, halist] at h
      have := ih h k hk
      simp only [List.map_cons, List.mem_cons]
      exact Or.inr this
    | some v =>
      simp only [buildMapped, halist] at h
      cases hm1 : mapOneField wf v with
      | error ex => rw [hm1] at h; simp at h
      | ok fv =>
        rw [hm1] at h
        simp only [except_bind_ok] at h
        cases hm2 : buildMapped xd rest with
        | error ex => rw [hm2] at h; simp at h
        | ok fd2 =>
          rw [hm2] at h
          simp only [except_bind_ok, except_pure_eq, Except.ok.injEq] at h
          subst h
          rw [fdKeys, List.map_cons] at hk
          simp only [List.map_cons, List.mem_cons]
          cases hk with
          | head => exact Or.inl rfl
          | tail _ hmem => exact Or.inr (ih hm2 k hmem)

/-- The mapped-fields loop over a concatenated table is the concatenation of
the two loops. -/
theorem buildMapped_append (xd m1 m2 : List (String × String)) :
    buildMapped xd (m1 ++ m2) =
      buildMapped xd m1 >>= fun a => buildMapped xd m2 >>= fun b => pure (a ++ b) := by
  induction m1 with
  | nil =>
    rw [List.nil_append]
    cases h : buildMapped xd m2 <;> simp [buildMapped]
  | cons a rest ih =>
    obtain ⟨xf, wf⟩ := a
    cases halist : alistGet xd xf with
    | none => simp [buildMapped, halist, ih]
    | some v =>
      cases hm : mapOneField wf v with
      | error ex => simp [buildMapped, halist, hm, ih]
      | ok fv =>
        cases h1 : buildMapped xd rest with
        | error ex => simp [buildMapped, halist, hm, h1, ih]
        | ok fd1 =>
          cases h2 : buildMapped xd m2 with
          | error ex => simp [buildMapped, halist, hm, h1, h2, ih]
          | ok fd2 => simp [buildMapped, halist, hm, h1, h2, ih]

/-- A successfully built payload has exactly the shape of lines 193-225:
published flags false and the five field groups concatenated in program
order. -/
theorem builtPayload_shape {updDate : String} {bankOr : String → Except PyExc (Option String)}
    {e : EntryData} {p : Payload} (hp : builtPayload updDate bankOr e = .ok p) :
    ∃ mapped bank, buildMapped e.xmlData field_mapping = .ok mapped ∧ bankOr e.orgnr = .ok bank ∧
      p = { isArchived := false, isDraft := false
          , fieldData := baseFields updDate e.title e.orgnr ++ mapped ++
              check_andre_fordeler ((alistGet e.xmlData "kredittkort_andre_fordeler_beskrivelse").getD "") ++
              aprFields e.xmlData ++ bankField bank } := by
  unfold builtPayload at hp
  cases hm : buildMapped e.xmlData field_mapping with
  | error ex => rw [hm] at hp; simp at hp
  | ok mapped =>
    rw [hm] at hp
    simp only [except_bind_ok] at hp
    cases hb : bankOr e.orgnr with
    | error ex => rw [hb] at hp; simp at hp
    | ok bank =>
      rw [hb] at hp
      simp only [except_bind_ok, except_pure_eq, Except.ok.injEq] at hp
      exact ⟨mapped, bank, rfl, rfl, hp.symm⟩

/-- The fixed whitelist of CMS field names the reconciler can write: the
three base fields, the mapping table targets, the four feature flags, the two
derived cost fields, and the bank reference. -/
def whitelistKeys : List String :=
  ["name", "leverandor-tekst", "sist-oppdatert"] ++ field_mapping.map (fun p => p.2) ++
  ["priority-pass", "cashback", "rabatter", "bonuser", "effektiv-rente-4", "eksempel-rente", "bank"]

/-- Every key of a successfully built payload is on the whitelist. -/
theorem builtPayload_keys {updDate : String} {bankOr : String → Except PyExc (Option String)}
    {e : EntryData} {p : Payload} (hp : builtPayload updDate bankOr e = .ok p) :
    ∀ k ∈ fdKeys p.fieldData, k ∈ whitelistKeys := by
  obtain ⟨mapped, bank, hm, _, hpe⟩ := builtPayload_shape hp
  subst hpe
  intro k hk
  simp only [fdKeys, List.map_append, List.mem_append] at hk
  rcases hk with ((((hbase | hmap) | hflag) | hapr) | hbank)
  · have hin : ∀ x ∈ (baseFields updDate e.title e.orgnr).map (fun p => p.1),
        x ∈ (["name", "leverandor-tekst", "sist-oppdatert"] : List String) := by
      simp [baseFields]
    have hsub : ∀ x ∈ (["name", "leverandor-tekst", "sist-oppdatert"] : List String),
        x ∈ whitelistKeys := by decide
    exact hsub k (hin k hbase)
  · have := buildMapped_keys hm k hmap
    unfold whitelistKeys
    simp only [List.mem_append]
    exact Or.inl (Or.inr this)
  · have hin : ∀ x ∈ (check_andre_fordeler
        ((alistGet e.xmlData "kredittkort_andre_fordeler_beskrivelse").getD "")).map (fun p => p.1),
        x ∈ (["priority-pass", "cashback", "rabatter", "bonuser"] : List String) := by
      simp [check_andre_fordeler]
    have hsub : ∀ x ∈ (["priority-pass", "cashback", "rabatter", "bonuser"] : List String),
        x ∈ whitelistKeys := by decide
    exact hsub k (hin k hflag)
  · have hin : ∀ x ∈ (aprFields e.xmlData).map (fun p => p.1),
        x ∈ (["effektiv-rente-4", "eksempel-rente"] : List String) := by
      unfold aprFields
      cases calculate_apr e.xmlData <;> simp
    have hsub : ∀ x ∈ (["effektiv-rente-4", "eksempel-rente"] : List String),
        x ∈ whitelistKeys := by decide
    exact hsub k (hin k hapr)
  · have hin : ∀ x ∈ (bankField bank).map (fun p => p.1),
        x ∈ (["bank"] : List String) := by
      unfold bankField
      cases bank <;> simp
    have hsub : ∀ x ∈ (["bank"] : List String), x ∈ whitelistKeys := by decide
    exact hsub k (hin k hbank)

/-- When the directory lookup finds the entry, the step issues the patch call
of lines 229-240 with the built payload. -/
theorem entryStepE_found {updDate : String} {idx : String → Option String}
    {bankOr : String → Except PyExc (Option String)}
    {patchOr : String → Payload → Except PyExc Nat}
    {postOr : Payload → Except PyExc Nat}
    {e : EntryData} {p : Payload} {itemId : String} {code : Nat}
    (hp : builtPayload updDate bankOr e = .ok p)
    (hidx : idx e.numericalId = some itemId)
    (hpatch : patchOr itemId p = .ok code) :
    entryStepE updDate idx bankOr patchOr postOr e =
      .ok { dUpd := if code = 200 then 1 else 0, dNew := 0
          , req := some (.patchReq itemId p)
          , log := [.itemStatus e.numericalId code] } := by
  unfold entryStepE
  rw [hp]
  simp only [except_bind_ok, hidx]
  rw [hpatch]
  simp

/-- When the directory lookup misses, the step issues the post call of lines
242-257 whose payload is the built payload plus the slug binding. -/
theorem entryStepE_notfound {updDate : String} {idx : String → Option String}
    {bankOr : String → Except PyExc (Option String)}
    {patchOr : String → Payload → Except PyExc Nat}
    {postOr : Payload → Except PyExc Nat}
    {e : EntryData} {p : Payload} {code : Nat}
    (hp : builtPayload updDate bankOr e = .ok p)
    (hidx : idx e.numericalId = none)
    (hpost : postOr { isArchived := false, isDraft := false
                    , fieldData := p.fieldData ++ [("slug", FV.s e.numericalId)] } = .ok code) :
    entryStepE updDate idx bankOr patchOr postOr e =
      .ok { dUpd := 0, dNew := (if code = 200 then 1 else 0)
          , req := some (.postReq
              { isArchived := false, isDraft := false,
                fieldData := p.fieldData ++ [("slug", FV.s e.numericalId)] })
          , log := [.newItemStatus e.numericalId code] ++
              (if code = 200 then [] else [.createFailed e.numericalId]) } := by
  unfold entryStepE
  rw [hp]
  simp only [except_bind_ok, hidx]
  rw [hpost]
  simp

/-- A bank oracle that finds nothing, for concrete instantiations. -/
def okBank : String → Except PyExc (Option String) := fun _ => .ok none

/-- A patch oracle that always answers 200. -/
def okPatch : String → Payload → Except PyExc Nat := fun _ _ => .ok 200

/-- A post oracle that always answers 200. -/
def okPost : Payload → Except PyExc Nat := fun _ => .ok 200

/-- A small feed entry whose nominal-rate text is non-numeric, so that the
cost calculation reports failure and the payload carries no derived cost
fields. -/
def sampleEntry : EntryData :=
  { title := "T", orgnr := "O"
  , xmlData := [("kredittkort_nominell_rente", "abc")], numericalId := "77" }

/-- The payload the program builds for sampleEntry on update date D. -/
def samplePayload : Payload :=
  { isArchived := false, isDraft := false
  , fieldData :=
      [("name", FV.s "T"), ("leverandor-tekst", FV.s "O"), ("sist-oppdatert", FV.s "D"),
       ("kredittkort-nominell-rente-3", FV.s "abc"),
       ("priority-pass", FV.b false), ("cashback", FV.b false), ("rabatter", FV.b false),
       ("bonuser", FV.b false)] }

/-- C1: the reconciler looks each entry up in the directory index; a hit
issues a patch call at the found item's id with the built payload and the
update counter increments exactly on status 200; a miss issues a post call
whose payload is the built payload plus slug bound to the external
identifier, with the create counter incrementing exactly on status 200; and
an update payload never contains a slug key. -/
theorem C1_dispatch (updDate : String) (items : List (String × WfItem))
    (bankOr : String → Except PyExc (Option String))
    (patchOr : String → Payload → Except PyExc Nat)
    (postOr : Payload → Except PyExc Nat)
    (e : EntryData) (p : Payload)
    (hp : builtPayload updDate bankOr e = .ok p) :
    (∀ itemId code, idxOf items e.numericalId = some itemId → patchOr itemId p = .ok code →
        entryStepE updDate (idxOf items) bankOr patchOr postOr e =
          .ok { dUpd := (if code = 200 then 1 else 0), dNew := 0
              , req := some (.patchReq itemId p)
              , log := [.itemStatus e.numericalId code] }) ∧
    (∀ code, idxOf items e.numericalId = none →
        postOr { isArchived := false, isDraft := false,
                 fieldData := p.fieldData ++ [("slug", FV.s e.numericalId)] } = .ok code →
        entryStepE updDate (idxOf items) bankOr patchOr postOr e =
          .ok { dUpd := 0, dNew := (if code = 200 then 1 else 0)
              , req := some (.postReq
                  { isArchived := false, isDraft := false,
                    fieldData := p.fieldData ++ [("slug", FV.s e.numericalId)] })
              , log := [.newItemStatus e.numericalId code] ++
                  (if code = 200 then [] else [.createFailed e.numericalId]) }) ∧
    "slug" ∉ fdKeys p.fieldData := by
  refine ⟨?_, ?_, ?_⟩
  · intro itemId code hidx hpatch
    exact entryStepE_found hp hidx hpatch
  · intro code hidx hpost
    exact entryStepE_notfound hp hidx hpost
  · intro hmem
    exact (by decide : "slug" ∉ whitelistKeys) (builtPayload_keys hp "slug" hmem)

theorem C1_witness :
    entryStepE "D" (idxOf []) okBank okPatch okPost sampleEntry =
      .ok { dUpd := 0, dNew := 1
          , req := some (.postReq
              { isArchived := false, isDraft := false,
                fieldData := samplePayload.fieldData ++ [("slug", FV.s "77")] })
          , log := [.newItemStatus "77" 200] } := by
  have h := (C1_dispatch "D" [] okBank okPatch okPost sampleEntry samplePayload
      (by decide)).2.1 200 rfl rfl
  simpa using h

/-- Appending a binding for a different key does not change a dict lookup. -/
theorem alistGet_append_notkey {xd : List (String × String)} {k k2 v : String} (h : k2 ≠ k) :
    alistGet (xd ++ [(k, v)]) k2 = alistGet xd k2 := by
  unfold alistGet
  rw [List.find?_append]
  cases hf : xd.find? (fun p => p.1 == k2) with
  | some q => simp
  | none =>
    have hbeq : (k == k2) = false := beq_eq_false_iff_ne.mpr (Ne.symm h)
    simp [List.find?, hbeq]

/-- The mapped-fields loop ignores a feed attribute outside the mapping
table. -/
theorem buildMapped_unmapped {xd : List (String × String)} {k v : String} :
    ∀ {m : List (String × String)}, k ∉ m.map (fun q => q.1) →
      buildMapped (xd ++ [(k, v)]) m = buildMapped xd m := by
  intro m
  induction m with
  | nil => intro _; rfl
  | cons a rest ih =>
    obtain ⟨xf, wf⟩ := a
    intro hk
    rw [List.map_cons, List.mem_cons] at hk
    push_neg at hk
    obtain ⟨hne, hrest⟩ := hk
    simp only [buildMapped]
    rw [alistGet_append_notkey (Ne.symm hne), ih hrest]

/-- The cost calculation ignores a feed attribute that is none of its three
numeric inputs. -/
theorem calculate_apr_extend {xd : List (String × String)} {k v : String}
    (h1 : k ≠ "kredittkort_nominell_rente") (h2 : k ≠ "kredittkort_kort_arsgebyr")
    (h3 : k ≠ "kredittkort_termingebyr") :
    calculate_apr (xd ++ [(k, v)]) = calculate_apr xd := by
  unfold calculate_apr fieldFloat
  rw [alistGet_append_notkey (Ne.symm h1), alistGet_append_notkey (Ne.symm h2),
    alistGet_append_notkey (Ne.symm h3)]

/-- The derived cost fields likewise ignore such an attribute. -/
theorem aprFields_extend {xd : List (String × String)} {k v : String}
    (h1 : k ≠ "kredittkort_nominell_rente") (h2 : k ≠ "kredittkort_kort_arsgebyr")
    (h3 : k ≠ "kredittkort_termingebyr") :
    aprFields (xd ++ [(k, v)]) = aprFields xd := by
  unfold aprFields
  rw [calculate_apr_extend h1 h2 h3]

/-- C5: every write payload has isArchived and isDraft false; every key of an
update payload is on the fixed whitelist, every key of a create payload on
the whitelist plus slug; and a feed attribute absent from the mapping table
is dropped silently — appending such an attribute leaves the built payload
unchanged (in particular it causes no error). -/
theorem C5_payload_invariants (updDate : String)
    (bankOr : String → Except PyExc (Option String)) (e : EntryData) (p : Payload)
    (hp : builtPayload updDate bankOr e = .ok p) :
    p.isArchived = false ∧ p.isDraft = false ∧
    (∀ k ∈ fdKeys p.fieldData, k ∈ whitelistKeys) ∧
    (∀ k ∈ fdKeys (p.fieldData ++ [("slug", FV.s e.numericalId)]), k ∈ whitelistKeys ++ ["slug"]) ∧
    (∀ (title orgnr numId : String) (xd : List (String × String)) (k v : String),
        k ∉ field_mapping.map (fun q => q.1) →
        builtPayload updDate bankOr
            { title := title, orgnr := orgnr, xmlData := xd ++ [(k, v)], numericalId := numId } =
          builtPayload updDate bankOr
            { title := title, orgnr := orgnr, xmlData := xd, numericalId := numId }) := by
  obtain ⟨mapped, bank, hm, hb, hpe⟩ := builtPayload_shape hp
  refine ⟨by rw [hpe], by rw [hpe], builtPayload_keys hp, ?_, ?_⟩
  · intro k hk
    rw [fdKeys, List.map_append, List.mem_append] at hk
    rcases hk with hk | hk
    · rw [List.mem_append]
      exact Or.inl (builtPayload_keys hp k hk)
    · rw [List.mem_append]
      right
      simpa using hk
  · intro title orgnr numId xd k v hk
    have h1 : k ≠ "kredittkort_nominell_rente" := by
      intro hh; exact hk (by rw [hh]; decide)
    have h2 : k ≠ "kredittkort_kort_arsgebyr" := by
      intro hh; exact hk (by rw [hh]; decide)
    have h3 : k ≠ "kredittkort_termingebyr" := by
      intro hh; exact hk (by rw [hh]; decide)
    have h4 : k ≠ "kredittkort_andre_fordeler_beskrivelse" := by
      intro hh; exact hk (by rw [hh]; decide)
    unfold builtPayload
    rw [buildMapped_unmapped hk, alistGet_append_notkey (Ne.symm h4), aprFields_extend h1 h2 h3]

theorem C5_witness :
    samplePayload.isArchived = false ∧ "name" ∈ whitelistKeys ∧ "slug" ∈ whitelistKeys ++ ["slug"] := by
  have h := C5_payload_invariants "D" okBank sampleEntry samplePayload (by decide)
  exact ⟨h.1, h.2.2.1 "name" (by decide), h.2.2.2.1 "slug" (by decide)⟩


/-- C4: a non-numeric rate or fee text makes calculate_apr report failure by
returning none (its bare except never lets the exception reach the caller);
on such failure the built payload carries no derived cost fields while every
other field group is still built; and the entry's create or update call is
still issued. -/
theorem C4_nonnumeric_isolated (updDate : String) (items : List (String × WfItem))
    (bankOr : String → Except PyExc (Option String))
    (patchOr : String → Payload → Except PyExc Nat)
    (postOr : Payload → Except PyExc Nat)
    (e : EntryData) :
    (∀ v ex, (alistGet e.xmlData "kredittkort_nominell_rente" = some v ∨
              alistGet e.xmlData "kredittkort_kort_arsgebyr" = some v ∨
              alistGet e.xmlData "kredittkort_termingebyr" = some v) →
        pyParseFloat v = .error ex → calculate_apr e.xmlData = none) ∧
    (calculate_apr e.xmlData = none → aprFields e.xmlData = [] ∧
        (∀ mapped bank, buildMapped e.xmlData field_mapping = .ok mapped →
            bankOr e.orgnr = .ok bank →
            builtPayload updDate bankOr e =
              .ok { isArchived := false, isDraft := false
                  , fieldData := baseFields updDate e.title e.orgnr ++ mapped ++
                      check_andre_fordeler
                        ((alistGet e.xmlData "kredittkort_andre_fordeler_beskrivelse").getD "") ++
                      bankField bank })) ∧
    (∀ p, builtPayload updDate bankOr e = .ok p →
        (∀ i pl, ∃ c, patchOr i pl = .ok c) → (∀ pl, ∃ c, postOr pl = .ok c) →
        ∃ r, (entryStep updDate (idxOf items) bankOr patchOr postOr e).req = some r) := by
  refine ⟨?_, ?_, ?_⟩
  · intro v ex hor hparse
    unfold calculate_apr
    rcases hor with h | h | h
    · have hf : fieldFloat e.xmlData "kredittkort_nominell_rente" = .error ex := by
        simp only [fieldFloat, h]; exact hparse
      rw [hf]
    · have hf : fieldFloat e.xmlData "kredittkort_kort_arsgebyr" = .error ex := by
        simp only [fieldFloat, h]; exact hparse
      rw [hf]
      cases h1 : fieldFloat e.xmlData "kredittkort_nominell_rente" with
      | error e1 => rfl
      | ok f1 => cases f1 <;> rfl
    · have hf : fieldFloat e.xmlData "kredittkort_termingebyr" = .error ex := by
        simp only [fieldFloat, h]; exact hparse
      rw [hf]
      cases h1 : fieldFloat e.xmlData "kredittkort_nominell_rente" with
      | error e1 => rfl
      | ok f1 =>
        cases h2 : fieldFloat e.xmlData "kredittkort_kort_arsgebyr" with
        | error e2 => cases f1 <;> rfl
        | ok f2 => cases f1 <;> cases f2 <;> rfl
  · intro hnone
    refine ⟨by simp [aprFields, hnone], ?_⟩
    intro mapped bank hm hb
    unfold builtPayload
    rw [hm]
    simp only [except_bind_ok]
    rw [hb]
    simp only [except_bind_ok]
    simp [aprFields, hnone]
  · intro p hp hpatch hpost
    cases hidx : idxOf items e.numericalId with
    | some itemId =>
      obtain ⟨c, hc⟩ := hpatch itemId p
      unfold entryStep
      rw [entryStepE_found hp hidx hc]
      exact ⟨.patchReq itemId p, rfl⟩
    | none =>
      obtain ⟨c, hc⟩ := hpost
        { isArchived := false, isDraft := false,
          fieldData := p.fieldData ++ [("slug", FV.s e.numericalId)] }
      unfold entryStep
      rw [entryStepE_notfound hp hidx hc]
      exact ⟨_, rfl⟩

theorem C4_witness :
    calculate_apr sampleEntry.xmlData = none ∧
    ((entryStep "D" (idxOf []) okBank okPatch okPost sampleEntry).req).isSome = true := by
  have h := C4_nonnumeric_isolated "D" [] okBank okPatch okPost sampleEntry
  refine ⟨h.1 "abc" (PyExc.valueError "could not convert string to float")
    (Or.inl (by decide)) (by decide), ?_⟩
  obtain ⟨r, hr⟩ := h.2.2 samplePayload (by decide)
    (fun i pl => ⟨200, rfl⟩) (fun pl => ⟨200, rfl⟩)
  rw [hr]
  rfl

/-- The per-entry step outcomes of one run, in feed order. -/
def loopSteps (updDate : String) (pages : List WfPage)
    (bankOr : String → Except PyExc (Option String))
    (patchOr : String → Payload → Except PyExc Nat)
    (postOr : Payload → Except PyExc Nat)
    (entries : List EntryData) : List StepOut :=
  entries.map (entryStep updDate (idxOf (fetch_all_webflow_items pages).1) bankOr patchOr postOr)

/-- The entry loop is compositional: its counters are the sums, its log and
request streams the concatenations, of the per-entry steps, in feed order. -/
theorem runLoopAux_spec (updDate : String) (items : List (String × WfItem))
    (bankOr : String → Except PyExc (Option String))
    (patchOr : String → Payload → Except PyExc Nat)
    (postOr : Payload → Except PyExc Nat) :
    ∀ entries : List EntryData,
      runLoopAux updDate items bankOr patchOr postOr entries =
        (((entries.map (entryStep updDate (idxOf items) bankOr patchOr postOr)).map
            (fun o => o.dUpd)).sum,
         ((entries.map (entryStep updDate (idxOf items) bankOr patchOr postOr)).map
            (fun o => o.dNew)).sum,
         ((entries.map (entryStep updDate (idxOf items) bankOr patchOr postOr)).map
            (fun o => o.log)).flatten,
         ((entries.map (entryStep updDate (idxOf items) bankOr patchOr postOr)).map
            (fun o => o.req.toList)).flatten) := by
  intro entries
  induction entries with
  | nil => rfl
  | cons e rest ih =>
    simp only [runLoopAux, ih, List.map_cons, List.sum_cons, List.flatten_cons]

/-- C2: an exception in any per-entry step is caught and replaced by a logged
line carrying that entry's identifier with no other effect; the whole run is
the per-entry steps in feed order — so a failing entry never prevents the
later entries from contributing their own calls and logs — and the two
summary lines always follow the loop output. -/
theorem C2_entry_isolation (updDate : String) (pages : List WfPage)
    (bankOr : String → Except PyExc (Option String))
    (patchOr : String → Payload → Except PyExc Nat)
    (postOr : Payload → Except PyExc Nat)
    (entries : List EntryData) (total : Nat) :
    (∀ (e : EntryData) (ex : PyExc),
        entryStepE updDate (idxOf (fetch_all_webflow_items pages).1) bankOr patchOr postOr e =
          .error ex →
        entryStep updDate (idxOf (fetch_all_webflow_items pages).1) bankOr patchOr postOr e =
          { dUpd := 0, dNew := 0, req := none, log := [.itemError e.numericalId ex] }) ∧
    check_webflow_existence updDate pages bankOr patchOr postOr entries total =
      (((loopSteps updDate pages bankOr patchOr postOr entries).map (fun o => o.dUpd)).sum,
       ((loopSteps updDate pages bankOr patchOr postOr entries).map (fun o => o.dNew)).sum,
       ((loopSteps updDate pages bankOr patchOr postOr entries).map (fun o => o.log)).flatten ++
         [.summaryUpdates
            (((loopSteps updDate pages bankOr patchOr postOr entries).map (fun o => o.dUpd)).sum)
            total,
          .summaryCreated
            (((loopSteps updDate pages bankOr patchOr postOr entries).map (fun o => o.dNew)).sum)],
       ((loopSteps updDate pages bankOr patchOr postOr entries).map (fun o => o.req.toList)).flatten) := by
  constructor
  · intro e ex h
    unfold entryStep
    rw [h]
  · unfold check_webflow_existence loopSteps
    simp only [runLoopAux_spec]

/-- A feed entry whose currency field is the text inf, on which the
thousands formatter raises an uncaught OverflowError while the payload is
being built. -/
def failEntry : EntryData :=
  { title := "T", orgnr := "O", xmlData := [("kredittkort_maks_ramme", "inf")], numericalId := "9" }

theorem C2_witness :
    entryStep "D" (idxOf (fetch_all_webflow_items []).1) okBank okPatch okPost failEntry =
      { dUpd := 0, dNew := 0, req := none
      , log := [.itemError "9" (PyExc.overflowError "cannot convert float infinity to integer")] } :=
  (C2_entry_isolation "D" [] okBank okPatch okPost [] 0).1 failEntry
    (PyExc.overflowError "cannot convert float infinity to integer") (by decide)

/-- The mapping-table entries before effektiv_rente, in table order. -/
def fmPre : List (String × String) :=
  [("kredittkort_andre_fordeler", "kredittkort-andre-fordeler"),
   ("min_alder", "aldersgrense-2"),
   ("maks_alder", "min-alder-2"),
   ("kredittkort_reiseforsikring", "reiseforsikring"),
   ("kredittkort_reiseforsikring_beskrivelse", "kredittkort-reiseforsikring-beskrivelse-3"),
   ("leverandor_tekst", "leverandor-tekst"),
   ("kredittkort_maks_ramme", "kredittkort-maks-ramme-2"),
   ("kredittkort_min_inntekt", "kredittkort-min-inntekt-2"),
   ("kredittkort_termingebyr", "kredittkort-termingebyr-2"),
   ("kredittkort_nominell_rente", "kredittkort-nominell-rente-3"),
   ("kredittkort_rentefri_periode", "kredittkort-rentefri-periode-2"),
   ("kredittkort_andre_fordeler_beskrivelse", "kredittkort-andre-fordeler-beskrivelse-2"),
   ("kredittkort_uttak_egen_bank_i_apningstid_transgebyr", "kredittkort-uttak-egen-bank-i-apningstid-2"),
   ("kredittkort_uttak_utland_valutapaslag", "kredittkort-uttak-utland-valutapaslag-2")]

/-- The mapping-table entries after effektiv_rente, in table order. -/
def fmPost : List (String × String) :=
  [("kredittkort_kort_arsgebyr", "kredittkort-kort-arsgebyr-2"),
   ("eksempel_rente", "eksempel-rente"),
   ("spesielle_betingelser", "spesielle-betingelser")]

theorem fm_split :
    field_mapping = fmPre ++ ("effektiv_rente", "effektiv-rente-4") :: fmPost := rfl

/-- C10: when the feed provides effektiv_rente, the payload binding for
effektiv-rente-4 is the calculator's formatted adjusted rate if the cost
calculation succeeded (overwriting the feed value), and the raw feed text
otherwise. -/
theorem C10_effektiv_rente_overwrite (updDate : String)
    (bankOr : String → Except PyExc (Option String)) (e : EntryData) (p : Payload) (v : String)
    (hv : alistGet e.xmlData "effektiv_rente" = some v)
    (hp : builtPayload updDate bankOr e = .ok p) :
    dGet p.fieldData "effektiv-rente-4" =
      some (FV.s (match calculate_apr e.xmlData with
                  | some apr => apr.effective_rate
                  | none => v)) := by
  obtain ⟨mapped, bank, hm, hb, hpe⟩ := builtPayload_shape hp
  subst hpe
  rw [fm_split] at hm
  rw [show (("effektiv_rente", "effektiv-rente-4") :: fmPost) =
      [("effektiv_rente", "effektiv-rente-4")] ++ fmPost from rfl] at hm
  rw [buildMapped_append] at hm
  cases hmPre : buildMapped e.xmlData fmPre with
  | error ex => rw [hmPre] at hm; simp at hm
  | ok fdPre =>
    rw [hmPre] at hm
    simp only [except_bind_ok] at hm
    rw [buildMapped_append] at hm
    have hmid : buildMapped e.xmlData [("effektiv_rente", "effektiv-rente-4")] =
        .ok [("effektiv-rente-4", FV.s v)] := by
      simp only [buildMapped, hv]
      rfl
    rw [hmid] at hm
    simp only [except_bind_ok] at hm
    cases hmPost : buildMapped e.xmlData fmPost with
    | error ex => rw [hmPost] at hm; simp at hm
    | ok fdPost =>
      rw [hmPost] at hm
      simp only [except_bind_ok, except_pure_eq, Except.ok.injEq] at hm
      subst hm
      have hpost : dGet fdPost "effektiv-rente-4" = none := by
        apply dGet_none
        intro q hq hq1
        have hkq := buildMapped_keys hmPost q.1 (List.mem_map.mpr ⟨q, hq, rfl⟩)
        rw [hq1] at hkq
        exact (by decide : "effektiv-rente-4" ∉ fmPost.map (fun p => p.2)) hkq
      have hbank : dGet (bankField bank) "effektiv-rente-4" = none := by
        cases bank <;> rfl
      have hflags : dGet (check_andre_fordeler
          ((alistGet e.xmlData "kredittkort_andre_fordeler_beskrivelse").getD ""))
          "effektiv-rente-4" = none := rfl
      rw [dGet_append, dGet_append, dGet_append, dGet_append, dGet_append, dGet_append]
      rw [hpost, hbank, hflags]
      cases hcalc : calculate_apr e.xmlData with
      | some apr =>
        have hapr : dGet (aprFields e.xmlData) "effektiv-rente-4" =
            some (FV.s apr.effective_rate) := by
          simp only [aprFields, hcalc]
          rfl
        rw [hapr]
        rfl
      | none =>
        have hapr : dGet (aprFields e.xmlData) "effektiv-rente-4" = none := by
          simp only [aprFields, hcalc]
          rfl
        rw [hapr]
        rfl

/-- A feed entry carrying a raw effektiv_rente text and a non-numeric
nominal rate, so the cost calculation fails. -/
def eC10 : EntryData :=
  { title := "T", orgnr := "O"
  , xmlData := [("effektiv_rente", "9.9"), ("kredittkort_nominell_rente", "abc")]
  , numericalId := "7" }

/-- The payload the program builds for eC10 on update date D. -/
def pC10 : Payload :=
  { isArchived := false, isDraft := false
  , fieldData :=
      [("name", FV.s "T"), ("leverandor-tekst", FV.s "O"), ("sist-oppdatert", FV.s "D"),
       ("kredittkort-nominell-rente-3", FV.s "abc"), ("effektiv-rente-4", FV.s "9.9"),
       ("priority-pass", FV.b false), ("cashback", FV.b false), ("rabatter", FV.b false),
       ("bonuser", FV.b false)] }

theorem C10_witness : dGet pC10.fieldData "effektiv-rente-4" = some (FV.s "9.9") := by
  have h := C10_effektiv_rente_overwrite "D" okBank eC10 pC10 "9.9" (by decide) (by decide)
  exact h

theorem C8_witness : 'a' ∉ upperAZ ∧ 'a' ∉ stripSet := by
  constructor
  · exact C8_slug_safety.2.2.2 "Ab" (by decide) 'a' (by decide)
  · exact C8_slug_safety.1 (some "Ab") 'a' (by decide)
